import Mathlib

/-!
Verification of the RoarBot command engine (src/mod.ts).

A shallow embedding of the command pattern-matching and dispatch engine of
the RoarBot Meower bot framework, together with the inbound event router.
Every definition is translated directly from `src/mod.ts` (version 1.5.2)
and `src/types.ts`; the doc comment of each definition cites the source
lines it embeds.
-/

namespace RoarBot

/-! ## Argument pattern data model (src/mod.ts lines 722-759)

`PatternType` is `"string" | "number" | "full" | string[]`; a pattern entry
is either a bare `PatternType` or an object
`{ type: PatternType; name?: string; optional?: boolean }`. -/

/-- The TS `PatternType`: `"string" | "number" | "full" | string[]`
(src/mod.ts line 722). The `enum` constructor is the `string[]` case. -/
inductive PatternType
  | str
  | num
  | full
  | enum (options : List String)
deriving DecidableEq, Repr

/-- One entry of a TS `Pattern` (src/mod.ts lines 756-759): either a bare
`PatternType` or a wrapper object with an optional name and optionality
flag. `obj t none b` models `{ type: t, optional: b }` with no `name` key. -/
inductive PatternEntry
  | bare (t : PatternType)
  | obj (t : PatternType) (name : Option String) (optional : Bool)
deriving DecidableEq, Repr

/-- Model of `const type = isObject ? slice.type : slice` (src/mod.ts line 793). -/
def PatternEntry.patternType : PatternEntry → PatternType
  | .bare t => t
  | .obj t _ _ => t

/-- Model of `const optional = isObject && !!slice.optional` (src/mod.ts line 794).
A bare entry is never optional. -/
def PatternEntry.isOptional : PatternEntry → Bool
  | .bare _ => false
  | .obj _ _ o => o

/-- JS truthiness of `slice.name`: `const name = isObject && !!slice.name`
(src/mod.ts line 803). An absent name and the empty string are both falsy. -/
def PatternEntry.hasTruthyName : PatternEntry → Bool
  | .bare _ => false
  | .obj _ none _ => false
  | .obj _ (some n) _ => n ≠ ""

/-- The string JS produces for `${type}` inside a template literal
(src/mod.ts line 804): the literal type names, or for a `string[]` the
default `Array.prototype.toString`, which joins with commas. -/
def PatternType.jsString : PatternType → String
  | .str => "string"
  | .num => "number"
  | .full => "full"
  | .enum options => String.intercalate "," options

/-- Model of `const repr = name ? s(slice.name) (s(type)) : s(type)` where `s` is
template interpolation (src/mod.ts line 804). -/
def slotRepr (e : PatternEntry) : String :=
  if e.hasTruthyName then
    (match e with
      | .obj _ (some n) _ => n
      | _ => "") ++ " (" ++ e.patternType.jsString ++ ")"
  else e.patternType.jsString

/-- Model of `JSON.stringify` applied to a string (used by the parser and dispatch
error messages, e.g. src/mod.ts lines 818-819): wraps in double quotes and
escapes backslashes and double quotes. Control-character escaping is not
modelled; no string in this development contains control characters. -/
def jsonQuote (s : String) : String :=
  "\"" ++
    (s.data.foldl
      (fun acc c =>
        acc ++
          (if c = '"' then "\\\""
           else if c = '\\' then "\\\\"
           else String.singleton c))
      "") ++ "\""

/-! ## JS numeric conversion

`Number(current)` on a token (src/mod.ts line 832). `none` models a NaN
result; `JsNum` distinguishes finite values from the two infinities since
`Number("Infinity")` is a number, not NaN. -/

/-- A JS number that can result from `Number(string)` when it is not NaN. -/
inductive JsNum
  | finite (q : ℚ)
  | posInf
  | negInf
deriving DecidableEq, Repr

/-- ASCII decimal digit test. -/
def isDecDigit (c : Char) : Bool := '0' ≤ c && c ≤ '9'

/-- Numeric value of a decimal digit character. -/
def digitVal (c : Char) : ℕ := c.toNat - '0'.toNat

/-- Value of a nonempty decimal digit string. -/
def decNatOf (ds : List Char) : ℕ :=
  ds.foldl (fun a c => 10 * a + digitVal c) 0

/-- Parse a nonempty all-decimal-digit string. -/
def parseDecDigits (ds : List Char) : Option ℕ :=
  if ds ≠ [] && ds.all isDecDigit then some (decNatOf ds) else none

/-- Parse the exponent part after `e`/`E`: an optional sign and digits. -/
def parseExponent : List Char → Option ℤ
  | '+' :: ds => (parseDecDigits ds).map (fun n => (n : ℤ))
  | '-' :: ds => (parseDecDigits ds).map (fun n => -(n : ℤ))
  | ds => (parseDecDigits ds).map (fun n => (n : ℤ))

/-- Parse an unsigned decimal mantissa: `digits`, `digits.digits?` or
`.digits` (at least one digit overall, at most one dot). -/
def parseMantissa (cs : List Char) : Option ℚ :=
  match cs.splitOn '.' with
  | [ip] =>
    if ip ≠ [] && ip.all isDecDigit then some ((decNatOf ip : ℚ)) else none
  | [ip, fp] =>
    if (ip ≠ [] || fp ≠ []) && ip.all isDecDigit && fp.all isDecDigit then
      some ((decNatOf ip : ℚ) + (decNatOf fp : ℚ) / (10 : ℚ) ^ fp.length)
    else none
  | _ => none

/-- Split character list at the first `e`/`E` into mantissa and exponent. -/
def spanExp : List Char → List Char × Option (List Char)
  | [] => ([], none)
  | c :: rest =>
    if c = 'e' || c = 'E' then ([], some rest)
    else
      let r := spanExp rest
      (c :: r.1, r.2)

/-- Parse an unsigned decimal literal with optional scientific exponent. -/
def parseUnsignedDec (cs : List Char) : Option ℚ :=
  let me := spanExp cs
  match parseMantissa me.1, me.2 with
  | some q, none => some q
  | some q, some ecs => (parseExponent ecs).map (fun ex => q * (10 : ℚ) ^ ex)
  | none, _ => none

/-- Parse a nonempty digit string in the given base. -/
def parseRadix (base : ℕ) (isDigitB : Char → Bool) (valB : Char → ℕ)
    (ds : List Char) : Option ℕ :=
  if ds ≠ [] && ds.all isDigitB then
    some (ds.foldl (fun a c => base * a + valB c) 0)
  else none

/-- Hex digit test. -/
def isHexDigit (c : Char) : Bool :=
  isDecDigit c || ('a' ≤ c && c ≤ 'f') || ('A' ≤ c && c ≤ 'F')

/-- Value of a hex digit. -/
def hexVal (c : Char) : ℕ :=
  if isDecDigit c then digitVal c
  else if 'a' ≤ c && c ≤ 'f' then c.toNat - 'a'.toNat + 10
  else c.toNat - 'A'.toNat + 10

/-- Whitespace as trimmed by JS ToNumber. -/
def jsWhitespace (c : Char) : Bool :=
  c = ' ' || c = '\t' || c = '\n' || c = '\r' || c = '\x0b' || c = '\x0c'

/-- Strip leading and trailing whitespace from a character list. -/
def jsTrim (cs : List Char) : List Char :=
  ((cs.dropWhile jsWhitespace).reverse.dropWhile jsWhitespace).reverse

/-- Sign-free part of `Number(string)`: `Infinity` or a decimal literal. -/
def jsNumberCore (cs : List Char) (neg : Bool) : Option JsNum :=
  if cs = "Infinity".data then
    some (if neg then JsNum.negInf else JsNum.posInf)
  else (parseUnsignedDec cs).map (fun q => JsNum.finite (if neg then -q else q))

/-- Model of `Number(s)` for a string argument (src/mod.ts line 832), returning
`none` for NaN. Models the JS ToNumber string grammar: surrounding ASCII
whitespace is trimmed; the empty string converts to `0`; `Infinity` with an
optional sign; unsigned `0x`/`0o`/`0b` radix literals; otherwise an
optionally signed decimal literal with optional fraction and exponent. -/
def jsNumber (s : String) : Option JsNum :=
  match jsTrim s.data with
  | [] => some (JsNum.finite 0)
  | '+' :: rest => if rest = [] then none else jsNumberCore rest false
  | '-' :: rest => if rest = [] then none else jsNumberCore rest true
  | '0' :: 'x' :: rest =>
    (parseRadix 16 isHexDigit hexVal rest).map (fun n => JsNum.finite (n : ℚ))
  | '0' :: 'X' :: rest =>
    (parseRadix 16 isHexDigit hexVal rest).map (fun n => JsNum.finite (n : ℚ))
  | '0' :: 'o' :: rest =>
    (parseRadix 8 (fun c => '0' ≤ c && c ≤ '7') digitVal rest).map
      (fun n => JsNum.finite (n : ℚ))
  | '0' :: 'O' :: rest =>
    (parseRadix 8 (fun c => '0' ≤ c && c ≤ '7') digitVal rest).map
      (fun n => JsNum.finite (n : ℚ))
  | '0' :: 'b' :: rest =>
    (parseRadix 2 (fun c => c = '0' || c = '1') digitVal rest).map
      (fun n => JsNum.finite (n : ℚ))
  | '0' :: 'B' :: rest =>
    (parseRadix 2 (fun c => c = '0' || c = '1') digitVal rest).map
      (fun n => JsNum.finite (n : ℚ))
  | cs => jsNumberCore cs false

/-! ## The argument parser (src/mod.ts lines 781-862) -/

/-- A value pushed onto `parsed` by `parseArgs`: strings (also produced by
enum and `full` slots) or numbers. A skipped optional slot pushes nothing. -/
inductive Value
  | vStr (s : String)
  | vNum (n : JsNum)
deriving DecidableEq, Repr

/-- The structured form of an early `return { error: true, message }` of
`parseArgs`. The two `def…` constructors are the hardcoded definition-error
messages (src/mod.ts lines 796-800 and 843-848, both ending in
`This is an issue with the bot, not your command.`); the remaining
constructors carry exactly the arguments the source passes to the
injectable `Messages` table entry of the same name
(`argsMissing`, `argsNotInSet`, `argNan`, `tooManyArgs`). -/
inductive ParseError
  | defOptionalBeforeRequired
  | defFullNotLast
  | argsMissing (slotDesc : String)
  | argsNotInSet (token allowed : String)
  | argNan (token : String)
  | tooManyArgs
deriving DecidableEq, Repr

/-- Whether a parse error is one of the two definition errors (bot-author
bug) rather than a user input error. -/
def ParseError.isDefinition : ParseError → Bool
  | .defOptionalBeforeRequired => true
  | .defFullNotLast => true
  | _ => false

/-- The `for (const [i, slice] of pattern.entries())` loop of `parseArgs`
(src/mod.ts lines 791-857), as a recursion over the remaining pattern
entries. `i` is the current slot index, `hadOptionals`/`hadFull` the two
loop flags, `parsed` the accumulator. On normal loop exit it returns
`hadFull` and the accumulated values. `args[i]` being `undefined` (index
out of range) and being `""` are interchangeable along every reachable
path of the loop body, so the JS `!current` test is modelled by
`args.getD i "" = ""`. -/
def parseArgsGo (args : List String) :
    List PatternEntry → ℕ → Bool → Bool → List Value →
    Except ParseError (Bool × List Value)
  | [], _, _, hadFull, parsed => .ok (hadFull, parsed)
  | slice :: rest, i, hadOptionals, hadFull, parsed =>
    let type := slice.patternType
    let optional := slice.isOptional
    if hadOptionals && !optional then
      .error .defOptionalBeforeRequired
    else
      let hadOptionals' := hadOptionals || optional
      let current := args.getD i ""
      if current = "" && optional then
        parseArgsGo args rest (i + 1) hadOptionals' hadFull parsed
      else if current = "" && !optional && type ≠ .full then
        .error (.argsMissing (slotRepr slice))
      else
        match type with
        | .enum options =>
          if options.contains current then
            parseArgsGo args rest (i + 1) hadOptionals' hadFull
              (parsed ++ [.vStr current])
          else
            .error (.argsNotInSet (jsonQuote current)
              (String.intercalate ", " (options.map jsonQuote)))
        | .str =>
          parseArgsGo args rest (i + 1) hadOptionals' hadFull
            (parsed ++ [.vStr current])
        | .num =>
          match jsNumber current with
          | none => .error (.argNan (jsonQuote current))
          | some n =>
            parseArgsGo args rest (i + 1) hadOptionals' hadFull
              (parsed ++ [.vNum n])
        | .full =>
          if rest ≠ [] then
            .error .defFullNotLast
          else
            parseArgsGo args rest (i + 1) hadOptionals' true
              (parsed ++ [.vStr (String.intercalate " " (args.drop i))])

/-- Model of `parseArgs(pattern, args, messages)` (src/mod.ts lines 781-862): run
the slot loop, then apply the trailing check
`if (!hadFull && args.length !== parsed.length) return tooManyArgs`.
Errors are returned in structured form (see `ParseError`); the source
renders them to strings through the injectable `messages` table, which
does not affect parsing logic. -/
def parseArgs (pattern : List PatternEntry) (args : List String) :
    Except ParseError (List Value) :=
  match parseArgsGo args pattern 0 false false [] with
  | .error e => .error e
  | .ok (hadFull, parsed) =>
    if !hadFull && args.length ≠ parsed.length then .error .tooManyArgs
    else .ok parsed

/-! ## Posts and command dispatch (src/mod.ts lines 424-480) -/

/-- The fields of an inbound `Post` that the dispatch code reads: `p` (the
raw text content), `u` (the author), and the reply-target fields
`post_id`/`post_origin` the reply closure is bound to. The remaining
fields (attachments, timestamps, reactions, reply chain) are never
consulted by dispatch. -/
structure Post where
  p : String
  u : String
  post_id : String
  post_origin : String
deriving DecidableEq, Repr

/-- Model of `String.prototype.toLowerCase` (src/mod.ts lines 130, 446). Modelled
by per-character lowercasing; `Char.toLower` agrees with JS on the ASCII
letters the trigger comparison is about. -/
def jsToLower (s : String) : String := ⟨s.data.map Char.toLower⟩

/-- Helper for `jsSplitSpace`: walk the characters, cutting a token at
every space; `acc` holds the characters of the current token in reverse. -/
def jsSplitSpaceAux : List Char → List Char → List String
  | [], acc => [⟨acc.reverse⟩]
  | ' ' :: rest, acc => String.mk acc.reverse :: jsSplitSpaceAux rest []
  | c :: rest, acc => jsSplitSpaceAux rest (c :: acc)

/-- Model of `post.p.split(" ")` (src/mod.ts lines 128, 444): split on every single
occurrence of a space; consecutive spaces produce empty tokens, and the
result is never empty (the empty string splits to `[""]`). -/
def jsSplitSpace (s : String) : List String := jsSplitSpaceAux s.data []

/-- The configuration the dispatch closures read from the bot instance:
`this.username` (the logged-in identity), `this._admins`, `this._banned`
(src/mod.ts lines 90-93, 103-104). -/
structure BotConfig where
  username : String
  admins : List String
  banned : List String
deriving DecidableEq, Repr

/-- A registered command as dispatch consults it: its name, argument
pattern and admin restriction (src/mod.ts lines 433-439). Commands in this
version carry no aliases. -/
structure RegisteredCommand where
  name : String
  pattern : List PatternEntry
  admin : Bool
deriving DecidableEq, Repr

/-- The trigger match of a command subscriber on the split content
(src/mod.ts lines 445-450): the subscriber returns early unless
`split[0].toLowerCase() === ("@" + username).toLowerCase()` and
`split[1] === name` (a missing `split[1]` is `undefined` and never equal
to the name). -/
def triggerMatchesSplit (username cmdName : String) (split : List String) :
    Bool :=
  (jsToLower (split.headD "") == jsToLower ("@" ++ username)) &&
    (match split[1]? with
      | some t => t == cmdName
      | none => false)

/-- What the per-command `post` subscriber registered by
`RoarBot.command` does with one inbound post (src/mod.ts lines 440-479),
up to the point where it either stops, replies once, or invokes the
handler. -/
inductive DispatchOutcome
  | ignoredSelf
  | noMatch
  | repliedBanned
  | repliedAdminLocked
  | repliedParseError (e : ParseError)
  | ranHandler (parsed : List Value)
deriving DecidableEq, Repr

/-- The body of the `post` subscriber registered by `RoarBot.command`
(src/mod.ts lines 440-479), in source order: ignore own posts
(line 441); split the content and return unless the trigger and name
match (lines 444-450); reply with the banned notice if the author is
banned (lines 451-454); reply with the admin-locked notice if the command
is admin-only and the author no admin (lines 455-458); otherwise run
`parseArgs` on `split.slice(2)` and either relay the parse error as the
reply or invoke the handler with the parsed arguments (lines 459-478). -/
def dispatchCommand (cfg : BotConfig) (cmd : RegisteredCommand)
    (post : Post) : DispatchOutcome :=
  if post.u == cfg.username then .ignoredSelf
  else
    let split := jsSplitSpace post.p
    if !triggerMatchesSplit cfg.username cmd.name split then .noMatch
    else if cfg.banned.contains post.u then .repliedBanned
    else if cmd.admin && !cfg.admins.contains post.u then .repliedAdminLocked
    else
      match parseArgs cmd.pattern (split.drop 2) with
      | .error e => .repliedParseError e
      | .ok parsed => .ranHandler parsed

/-- The condition of the `post` subscriber installed by the constructor
(src/mod.ts lines 127-136): it replies with the `noCommand` notice when
the first token is the bot mention (case-insensitively), a second token is
present and truthy, and no registered command has exactly that name. It
performs no author check. -/
def noCommandTriggered (cfg : BotConfig)
    (commands : List RegisteredCommand) (post : Post) : Bool :=
  let split := jsSplitSpace post.p
  (jsToLower (split.headD "") == jsToLower ("@" ++ cfg.username)) &&
    (match split[1]? with
      | some t => t ≠ "" && !(commands.any (fun c => c.name == t))
      | none => false)

/-- An observable effect of firing the `post` event: one of the notices
being sent as a reply, or a command handler being invoked with its parsed
arguments. -/
inductive Effect
  | replyNoCommand (arg : String)
  | replyBanned
  | replyAdminLocked
  | replyParseError (e : ParseError)
  | runHandler (cmdName : String) (parsed : List Value)
deriving DecidableEq, Repr

/-- The effects of one command subscriber on one post, from its
`DispatchOutcome`. -/
def commandEffects (cfg : BotConfig) (cmd : RegisteredCommand)
    (post : Post) : List Effect :=
  match dispatchCommand cfg cmd post with
  | .ignoredSelf => []
  | .noMatch => []
  | .repliedBanned => [.replyBanned]
  | .repliedAdminLocked => [.replyAdminLocked]
  | .repliedParseError e => [.replyParseError e]
  | .ranHandler parsed => [.runHandler cmd.name parsed]

/-- All effects of firing the `post` event for one post, across the
subscriber list in registration order: first the `noCommand` subscriber
installed by the constructor (src/mod.ts lines 127-136, it passes
`JSON.stringify(split[1])` to the notice), then the subscriber of each
registered command in registration order (src/mod.ts line 440). -/
def postEffects (cfg : BotConfig) (commands : List RegisteredCommand)
    (post : Post) : List Effect :=
  (if noCommandTriggered cfg commands post then
    [.replyNoCommand (jsonQuote ((jsSplitSpace post.p).getD 1 ""))]
  else []) ++
    (commands.map (fun c => commandEffects cfg c post)).flatten

/-! ## The command registry (src/mod.ts lines 424-439) -/

/-- The registry state `RoarBot.command` mutates: the `_commands` array
and the list of per-command `post` subscribers it has installed
(identified here by the command name each closure captures). -/
structure RegState where
  commands : List RegisteredCommand
  postSubs : List String
deriving DecidableEq, Repr

/-- Model of `RoarBot.command(name, options)` (src/mod.ts lines 424-480) as a state
transition: if some registered command already has this exact name, throw
(`Except.error` with the thrown message) before any mutation; otherwise
push the command entry and install its `post` subscriber. -/
def registerCommand (st : RegState) (name : String)
    (pattern : List PatternEntry) (admin : Bool) : Except String RegState :=
  if st.commands.any (fun c => c.name == name) then
    .error ("A command with the name of " ++ jsonQuote name ++
      " already exists.")
  else
    .ok
      { commands := st.commands ++ [⟨name, pattern, admin⟩],
        postSubs := st.postSubs ++ [name] }

/-! ## Event subscriber lists (src/mod.ts lines 85-88, 240-264, 279-281) -/

/-- One event subscriber, abstracted to an identifier and whether its
invocation throws synchronously. -/
structure Subscriber where
  id : ℕ
  throws : Bool
deriving DecidableEq, Repr

/-- Model of `RoarBot.on` (src/mod.ts lines 279-281): `this._events[event].push(callback)`
appends to the per-event list. -/
def onEvent (subs : List Subscriber) (s : Subscriber) : List Subscriber :=
  subs ++ [s]

/-- Firing an event list: `this._events[kind].forEach((callback) => callback(...))`
(src/mod.ts lines 248 and 255-263). `Array.prototype.forEach` invokes the
callbacks one by one in list order with no surrounding try/catch, so a
synchronous exception propagates out of `forEach` and ends the iteration.
Returns the ids of the subscribers that were invoked, in invocation
order, and whether an exception escaped. -/
def fireAll : List Subscriber → List ℕ × Bool
  | [] => ([], false)
  | s :: rest =>
    if s.throws then ([s.id], true)
    else
      let r := fireAll rest
      (s.id :: r.1, r.2)

/-! ## Inbound frames and the event router (src/mod.ts lines 240-264,
src/types.ts) -/

/-- A parsed JSON value, the input to the zod schemas. Numbers are
modelled as integers: the schemas only test that a value is a number, and
no specified behaviour depends on non-integral numeric payloads. -/
inductive JValue
  | jNull
  | jBool (b : Bool)
  | jNum (n : ℤ)
  | jStr (s : String)
  | jArr (elems : List JValue)
  | jObj (fields : List (String × JValue))
deriving Repr

/-- Look up a key in the field list of a JSON object (first occurrence). -/
def jGet (fields : List (String × JValue)) (key : String) : Option JValue :=
  (fields.find? (fun kv => kv.1 == key)).map (fun kv => kv.2)

/-- An attachment as validated by `ATTACHMENT_SCHEMA`
(src/types.ts lines 13-28). -/
structure MAttachment where
  filename : String
  height : ℤ
  id : String
  mime : String
  size : ℤ
  width : ℤ
deriving DecidableEq, Repr

/-- One entry of `reactions` as validated by `BASE_POST_SCHEMA`
(src/types.ts lines 54-60). -/
structure Reaction where
  count : ℤ
  emoji : String
  user_reacted : Bool
deriving DecidableEq, Repr

/-- A post as validated by `POST_SCHEMA` (src/types.ts lines 30-64):
`BASE_POST_SCHEMA` extended with the recursive nullable `reply_to` list.
The validated literal `isDeleted: false` carries no information and is not
stored. `t_e` is the `e` field of the `t` timestamp object. -/
inductive ApiPost
  | mk (attachments : List MAttachment) (edited_at : Option ℤ) (p : String)
      (post_id : String) (post_origin : String) (t_e : ℤ) (typ : ℤ)
      (u : String) (reactions : List Reaction)
      (reply_to : List (Option ApiPost))

/-- Model of `ATTACHMENT_SCHEMA.safeParse` (src/types.ts lines 21-28): an object
with the six typed fields; zod objects ignore unknown keys. -/
def attachmentParse : JValue → Option MAttachment
  | .jObj f =>
    match jGet f "filename", jGet f "height", jGet f "id", jGet f "mime",
        jGet f "size", jGet f "width" with
    | some (.jStr fn), some (.jNum h), some (.jStr i), some (.jStr m),
        some (.jNum sz), some (.jNum w) => some ⟨fn, h, i, m, sz, w⟩
    | _, _, _, _, _, _ => none
  | _ => none

/-- The `reactions` element schema (src/types.ts lines 54-60). -/
def reactionParse : JValue → Option Reaction
  | .jObj f =>
    match jGet f "count", jGet f "emoji", jGet f "user_reacted" with
    | some (.jNum c), some (.jStr e), some (.jBool r) => some ⟨c, e, r⟩
    | _, _, _ => none
  | _ => none

/-- The non-recursive fields extracted by `BASE_POST_SCHEMA`
(src/types.ts lines 44-61), without `reply_to`. -/
structure PostShape where
  attachments : List MAttachment
  edited_at : Option ℤ
  p : String
  post_id : String
  post_origin : String
  t_e : ℤ
  typ : ℤ
  u : String
  reactions : List Reaction
deriving DecidableEq, Repr

/-- Validate the `BASE_POST_SCHEMA` fields of a post object
(src/types.ts lines 44-61): `attachments` an array of attachments,
`edited_at` an optional number (key may be absent, but if present must be
a number), `isDeleted` the literal `false`, `p`/`post_id`/`post_origin`/`u`
strings, `t` an object with a numeric `e`, `type` a number, `reactions` an
array of reaction objects. -/
def postShapeParse (f : List (String × JValue)) : Option PostShape :=
  match jGet f "attachments", jGet f "isDeleted", jGet f "p",
      jGet f "post_id", jGet f "post_origin", jGet f "t", jGet f "type",
      jGet f "u", jGet f "reactions" with
  | some (.jArr atts), some (.jBool false), some (.jStr p),
      some (.jStr pid), some (.jStr por), some (.jObj tf), some (.jNum ty),
      some (.jStr u), some (.jArr reacts) =>
    match atts.mapM attachmentParse, jGet tf "e",
        reacts.mapM reactionParse with
    | some atts', some (.jNum te), some reacts' =>
      match jGet f "edited_at" with
      | none => some ⟨atts', none, p, pid, por, te, ty, u, reacts'⟩
      | some (.jNum ea) => some ⟨atts', some ea, p, pid, por, te, ty, u, reacts'⟩
      | some _ => none
    | _, _, _ => none
  | _, _, _, _, _, _, _, _, _ => none

mutual

/-- Model of `POST_SCHEMA.safeParse` (src/types.ts lines 62-64): the base fields
plus the recursive `reply_to`, an array whose elements are `null` or
themselves posts. -/
def postParse (v : JValue) : Option ApiPost :=
  match v with
  | .jObj f =>
    match postShapeParse f with
    | none => none
    | some s =>
      match hr : jGet f "reply_to" with
      | some (.jArr l) =>
        (replyListParse l).map
          (fun rt =>
            ApiPost.mk s.attachments s.edited_at s.p s.post_id
              s.post_origin s.t_e s.typ s.u s.reactions rt)
      | _ => none
  | _ => none
termination_by sizeOf v
decreasing_by
  simp only [jGet, Option.map_eq_some'] at hr
  obtain ⟨kv, hfind, hkv⟩ := hr
  have h1 : sizeOf kv < sizeOf f := List.sizeOf_lt_of_mem
    (List.mem_of_find?_eq_some hfind)
  obtain ⟨k1, v1⟩ := kv
  cases hkv
  simp at h1 ⊢
  omega

/-- Model of `POST_SCHEMA.nullable().array()` elementwise: `null` is accepted as
an explicit absent referent, anything else must validate as a post. -/
def replyListParse (l : List JValue) : Option (List (Option ApiPost)) :=
  match l with
  | [] => some []
  | .jNull :: rest => (replyListParse rest).map (fun t => none :: t)
  | v :: rest =>
    match postParse v with
    | none => none
    | some p => (replyListParse rest).map (fun t => some p :: t)
termination_by sizeOf l

end

/-- Model of `AUTH_PACKET_SCHEMA.safeParse` (src/types.ts lines 7-10): an object
with `cmd` equal to the literal `"auth"` and `val` an object with a string
`token`. Returns the token on success. -/
def authPacketParse (v : JValue) : Option String :=
  match v with
  | .jObj f =>
    match jGet f "cmd", jGet f "val" with
    | some (.jStr "auth"), some (.jObj vf) =>
      match jGet vf "token" with
      | some (.jStr t) => some t
      | _ => none
    | _, _ => none
  | _ => none

/-- Model of `POST_PACKET_SCHEMA.safeParse` (src/types.ts lines 71-74): an object
with `cmd` equal to the literal `"post"` and `val` validating as a post. -/
def postPacketParse (v : JValue) : Option ApiPost :=
  match v with
  | .jObj f =>
    match jGet f "cmd", jGet f "val" with
    | some (.jStr "post"), some pv => postParse pv
    | _, _ => none
  | _ => none

/-- The `cmd` discriminant of a frame, when the frame is an object whose
`cmd` field is a string. -/
def frameCmd (v : JValue) : Option String :=
  match v with
  | .jObj f =>
    match jGet f "cmd" with
    | some (.jStr c) => some c
    | _ => none
  | _ => none

/-- The bot state the two websocket `message` listeners can mutate:
`this._username` and `this._token` (src/mod.ts lines 90-91, 246-247). -/
structure RouterState where
  usernameF : Option String
  tokenF : Option String
deriving DecidableEq, Repr

/-- An event-subscriber list being fired by the router. -/
inductive RouterEffect
  | fireLogin (token : String)
  | firePost (post : ApiPost)

/-- Processing of one inbound websocket frame by the two `message`
listeners registered in `RoarBot.login` (src/mod.ts lines 240-264), in
registration order. The first listener safe-parses the frame against
`AUTH_PACKET_SCHEMA`; on failure it returns, otherwise it records the
logged-in username and token and fires the `login` subscriber list with
the token. The second listener safe-parses against `POST_PACKET_SCHEMA`;
on failure it returns, otherwise it fires the `post` subscriber list.
`loginUsername` is the `username` argument of `login` captured by the
first listener. Returns the updated state and the fired subscriber lists
in order. -/
def handleFrame (loginUsername : String) (st : RouterState)
    (frame : JValue) : RouterState × List RouterEffect :=
  let stAuth :=
    match authPacketParse frame with
    | some token =>
      (RouterState.mk (some loginUsername) (some token),
        [RouterEffect.fireLogin token])
    | none => (st, [])
  let postFires :=
    match postPacketParse frame with
    | some post => [RouterEffect.firePost post]
    | none => []
  (stAuth.1, stAuth.2 ++ postFires)

/-! ## Predicates used by the statements below -/

/-- Scan of a pattern with the `hadOptionals` flag: `true` iff, starting
from flag `seen`, some non-optional slot occurs at or after a position
where the flag has become set — i.e. (for `seen = false`) iff an optional
slot precedes a non-optional one. -/
def hasOptThenRequired : List PatternEntry → Bool → Bool
  | [], _ => false
  | e :: rest, seen =>
    if seen && !e.isOptional then true
    else hasOptThenRequired rest (seen || e.isOptional)

/-- Whether a pattern contains a non-optional `full` slot at a position
other than the last. -/
def hasRequiredFullNotLast : List PatternEntry → Bool
  | [] => false
  | e :: rest =>
    (!rest.isEmpty && e.patternType == .full && !e.isOptional) ||
      hasRequiredFullNotLast rest

/-- Whether an effect is the `noCommand` notice of the constructor subscriber
(as opposed to any effect of a command dispatch subscriber). -/
def Effect.isNoCommandNotice : Effect → Bool
  | .replyNoCommand _ => true
  | _ => false

/-! ## Theorems -/

/-- Claim C4: registering a command whose name already exists as the name of
a previously registered command fails on that second registration with the
thrown duplicate-name error, for every registry state; the throw happens
before the command entry is pushed and before the `post` subscriber is
installed, so the registry is left exactly unchanged. (Commands in this
version of the code carry no aliases, so the alias clauses of the claim
are vacuous.) -/
theorem registerCommand_duplicate_rejected
    (st : RegState) (name : String) (pattern : List PatternEntry)
    (admin : Bool)
    (h : st.commands.any (fun c => c.name == name) = true) :
    registerCommand st name pattern admin =
      .error ("A command with the name of " ++ jsonQuote name ++
        " already exists.") := by
  simp [registerCommand, h]

/-- Witness for C4: re-registering `ping` on a registry that already holds
a `ping` command is rejected. -/
theorem registerCommand_duplicate_rejected_witness :
    registerCommand ⟨[⟨"ping", [], false⟩], ["ping"]⟩ "ping" [] false =
      .error ("A command with the name of " ++ jsonQuote "ping" ++
        " already exists.") :=
  registerCommand_duplicate_rejected _ _ _ _ (by decide)

/-- Claim C6, counterexample: with two registered subscribers of which the
first throws synchronously, firing the event invokes only the first; the
second subscriber is never invoked, refuting the isolation half of the
claim. -/
theorem fireAll_throwing_stops_counterexample :
    fireAll [⟨0, true⟩, ⟨1, false⟩] = ([0], true) ∧
      (1 : ℕ) ∉ (fireAll [⟨0, true⟩, ⟨1, false⟩]).1 := by decide

/-- Claim C6, amended: firing an event invokes subscribers in registration
order up to and including the first one that throws synchronously: the
invoked ids are exactly the ids of the longest throw-free prefix followed
by, if any subscriber remains, the id of the first throwing subscriber;
the exception escapes `forEach` iff some subscriber up to there throws.
In particular, when no subscriber throws, every subscriber is invoked in
registration order, but a synchronously throwing subscriber does prevent
all subsequent subscribers from being invoked. -/
theorem fireAll_invocation_order (subs : List Subscriber) :
    fireAll subs =
      ((subs.takeWhile (fun s => !s.throws)).map Subscriber.id ++
          (((subs.dropWhile (fun s => !s.throws)).head?.map
            Subscriber.id).toList),
        subs.any Subscriber.throws) := by
  induction subs with
  | nil => rfl
  | cons s rest ih =>
    by_cases hs : s.throws = true
    · simp [fireAll, hs]
    · simp only [Bool.not_eq_true] at hs
      simp [fireAll, hs, ih]

/-- Claim C7: in the trigger match of a command subscriber, the leading
mention token is compared case-insensitively (any first token with the
same lowercasing as `@<bot-username>` passes, and then the match is
decided exactly by the second token equalling the command name), while
the command token is compared case-sensitively (any second token other
than the exact registered name, including one differing only in letter
case, fails the match). -/
theorem trigger_mention_insensitive_name_sensitive
    (username cmdName s0 s1 : String) (rest : List String) :
    (jsToLower s0 = jsToLower ("@" ++ username) →
      (triggerMatchesSplit username cmdName (s0 :: s1 :: rest) = true ↔
        s1 = cmdName)) ∧
    (s1 ≠ cmdName →
      triggerMatchesSplit username cmdName (s0 :: s1 :: rest) = false) := by
  constructor
  · intro h
    simp [triggerMatchesSplit, h]
  · intro h
    simp [triggerMatchesSplit, h]

/-- Witness for C7: for bot `Bot` and command `greet`, the mention
`@bOt` (wrong case) still matches, and the command token `Greet`
(differing from `greet` only in case) does not. -/
theorem trigger_mention_insensitive_name_sensitive_witness :
    triggerMatchesSplit "Bot" "greet" ["@bOt", "greet"] = true ∧
      triggerMatchesSplit "Bot" "greet" ["@bot", "Greet"] = false :=
  ⟨((trigger_mention_insensitive_name_sensitive "Bot" "greet" "@bOt" "greet"
      []).1 (by decide)).mpr rfl,
    (trigger_mention_insensitive_name_sensitive "Bot" "greet" "@bot" "Greet"
      []).2 (by decide)⟩

/-- A frame accepted by the auth packet schema has the `cmd` discriminant
`"auth"`. -/
theorem authPacketParse_cmd (v : JValue) (t : String)
    (h : authPacketParse v = some t) : frameCmd v = some "auth" := by
  cases v with
  | jObj f =>
    simp only [authPacketParse] at h
    simp only [frameCmd]
    split at h
    · rename_i vf hcmd hval
      rw [hcmd]
    · simp at h
  | jNull => simp [authPacketParse] at h
  | jBool b => simp [authPacketParse] at h
  | jNum n => simp [authPacketParse] at h
  | jStr s => simp [authPacketParse] at h
  | jArr l => simp [authPacketParse] at h

/-- A frame accepted by the post packet schema has the `cmd` discriminant
`"post"`. -/
theorem postPacketParse_cmd (v : JValue) (p : ApiPost)
    (h : postPacketParse v = some p) : frameCmd v = some "post" := by
  cases v with
  | jObj f =>
    simp only [postPacketParse] at h
    simp only [frameCmd]
    split at h
    · rename_i pv hcmd hval
      rw [hcmd]
    · simp at h
  | jNull => simp [postPacketParse] at h
  | jBool b => simp [postPacketParse] at h
  | jNum n => simp [postPacketParse] at h
  | jStr s => simp [postPacketParse] at h
  | jArr l => simp [postPacketParse] at h

/-- Claim C9: an inbound frame whose `cmd` discriminant is not `"auth"`
or `"post"` (the first disjunct of the hypothesis, which also covers
frames with no string `cmd` at all), or whose payload fails the
structural validation of both packet schemas (the second disjunct —
in particular a frame with a *recognized* discriminant whose payload the
corresponding schema rejects, such as `{cmd:"auth", val:5}`, since the
other schema then fails on the discriminant), produces zero observable
effects: neither listener fires any event subscriber list, and the bot
state (username, token) is unchanged. -/
theorem unrecognized_or_invalid_frame_no_effects (loginUsername : String)
    (st : RouterState) (frame : JValue)
    (h : (∀ c, frameCmd frame = some c → c ≠ "auth" ∧ c ≠ "post") ∨
      (authPacketParse frame = none ∧ postPacketParse frame = none)) :
    handleFrame loginUsername st frame = (st, []) := by
  have hap : authPacketParse frame = none ∧ postPacketParse frame = none := by
    rcases h with h | h
    · constructor
      · cases hx : authPacketParse frame with
        | none => rfl
        | some t => exact absurd rfl (h "auth" (authPacketParse_cmd _ _ hx)).1
      · cases hx : postPacketParse frame with
        | none => rfl
        | some p => exact absurd rfl (h "post" (postPacketParse_cmd _ _ hx)).2
    · exact h
  simp [handleFrame, hap.1, hap.2]

/-- Witness for C9, exercising both disjuncts of the hypothesis: an
unrecognized `ulist`-discriminated frame, a frame with the recognized
discriminant `auth` whose payload `val: 5` fails the auth schema, and a
frame with the recognized discriminant `post` whose payload fails the
post schema; each leaves a concrete router state untouched and fires
nothing. -/
theorem unrecognized_or_invalid_frame_no_effects_witness :
    handleFrame "Bot" ⟨some "Bot", some "tok"⟩
        (JValue.jObj [("cmd", JValue.jStr "ulist")]) =
      (⟨some "Bot", some "tok"⟩, []) ∧
    handleFrame "Bot" ⟨some "Bot", some "tok"⟩
        (JValue.jObj [("cmd", JValue.jStr "auth"), ("val", JValue.jNum 5)]) =
      (⟨some "Bot", some "tok"⟩, []) ∧
    handleFrame "Bot" ⟨some "Bot", some "tok"⟩
        (JValue.jObj [("cmd", JValue.jStr "post"), ("val", JValue.jNum 5)]) =
      (⟨some "Bot", some "tok"⟩, []) :=
  ⟨unrecognized_or_invalid_frame_no_effects "Bot" ⟨some "Bot", some "tok"⟩
      (JValue.jObj [("cmd", JValue.jStr "ulist")])
      (Or.inl (by
        intro c hc
        have : frameCmd (JValue.jObj [("cmd", JValue.jStr "ulist")]) =
            some "ulist" := rfl
        rw [this] at hc
        cases hc
        exact ⟨by decide, by decide⟩)),
    unrecognized_or_invalid_frame_no_effects "Bot" ⟨some "Bot", some "tok"⟩
      (JValue.jObj [("cmd", JValue.jStr "auth"), ("val", JValue.jNum 5)])
      (Or.inr ⟨rfl, rfl⟩),
    unrecognized_or_invalid_frame_no_effects "Bot" ⟨some "Bot", some "tok"⟩
      (JValue.jObj [("cmd", JValue.jStr "post"), ("val", JValue.jNum 5)])
      (Or.inr ⟨rfl, by simp [postPacketParse, jGet, List.find?, postParse]⟩)⟩

/-- Claim C5, counterexample: the self-post check precedes the ban check, so
when the own username of the bot is in the ban set and the bot authors a
post matching the trigger and name of a registered command, dispatch neither
replies with the ban notice nor does anything else — refuting "dispatch
replies with the ban notice" as stated for every banned author. -/
theorem banned_self_post_counterexample :
    (BotConfig.mk "Bot" [] ["Bot"]).banned.contains
        (Post.mk "@Bot ping" "Bot" "1" "home").u = true ∧
      triggerMatchesSplit "Bot" "ping"
        (jsSplitSpace (Post.mk "@Bot ping" "Bot" "1" "home").p) = true ∧
      dispatchCommand (BotConfig.mk "Bot" [] ["Bot"])
        (RegisteredCommand.mk "ping" [] false)
        (Post.mk "@Bot ping" "Bot" "1" "home") = .ignoredSelf ∧
      dispatchCommand (BotConfig.mk "Bot" [] ["Bot"])
        (RegisteredCommand.mk "ping" [] false)
        (Post.mk "@Bot ping" "Bot" "1" "home") ≠ .repliedBanned := by
  decide

/-- Claim C5, amended: for every post not authored by the bot itself whose
author is in the ban set and that matches the trigger and name of a
registered command, dispatch replies with the ban notice and stops; and
for every banned author whatsoever the handler of the command is never invoked,
regardless of whether the arguments would parse. Since the ban branch is
taken whatever the admin restriction of the command and the admin status
of the author, the ban check takes precedence over the admin-restriction
check. -/
theorem banned_author_dispatch (cfg : BotConfig) (cmd : RegisteredCommand)
    (post : Post) (hban : cfg.banned.contains post.u = true) :
    (post.u ≠ cfg.username →
      triggerMatchesSplit cfg.username cmd.name (jsSplitSpace post.p) =
        true →
      dispatchCommand cfg cmd post = .repliedBanned) ∧
    (∀ parsed, dispatchCommand cfg cmd post ≠ .ranHandler parsed) := by
  have hmem : post.u ∈ cfg.banned := by simpa using hban
  constructor
  · intro hself hmatch
    simp [dispatchCommand, hself, hmatch, hmem]
  · intro parsed
    by_cases hself : post.u = cfg.username
    · simp [dispatchCommand, hself]
    · by_cases hmatch :
        triggerMatchesSplit cfg.username cmd.name (jsSplitSpace post.p) =
          true
      · simp [dispatchCommand, hself, hmatch, hmem]
      · simp only [Bool.not_eq_true] at hmatch
        simp [dispatchCommand, hself, hmatch]

/-- Witness for C5: a banned non-self author invoking a matching admin
command gets the ban notice (not the admin notice), and the handler does
not run. -/
theorem banned_author_dispatch_witness :
    dispatchCommand (BotConfig.mk "Bot" [] ["eve"])
        (RegisteredCommand.mk "ping" [] true)
        (Post.mk "@Bot ping" "eve" "1" "home") = .repliedBanned ∧
      ∀ parsed,
        dispatchCommand (BotConfig.mk "Bot" [] ["eve"])
          (RegisteredCommand.mk "ping" [] true)
          (Post.mk "@Bot ping" "eve" "1" "home") ≠ .ranHandler parsed :=
  ⟨(banned_author_dispatch (BotConfig.mk "Bot" [] ["eve"])
        (RegisteredCommand.mk "ping" [] true)
        (Post.mk "@Bot ping" "eve" "1" "home") (by decide)).1
      (by decide) (by decide),
    (banned_author_dispatch (BotConfig.mk "Bot" [] ["eve"])
        (RegisteredCommand.mk "ping" [] true)
        (Post.mk "@Bot ping" "eve" "1" "home") (by decide)).2⟩

/-- Claim C8, counterexample: a post authored by the bot itself whose
second token matches no registered command still receives the "command
not found" notice, because the `noCommand` subscriber of the constructor
performs no author check — refuting "no reply of any kind is sent". -/
theorem self_post_noCommand_counterexample :
    (Post.mk "@Bot frobnicate" "Bot" "1" "home").u =
        (BotConfig.mk "Bot" [] []).username ∧
      postEffects (BotConfig.mk "Bot" [] [])
          [RegisteredCommand.mk "help" [] false]
          (Post.mk "@Bot frobnicate" "Bot" "1" "home") =
        [Effect.replyNoCommand (jsonQuote "frobnicate")] := by
  constructor
  · rfl
  · rfl

/-- Claim C8, amended: every command-dispatch subscriber ignores a post
authored by the bot itself — no handler runs and no
command-dispatch reply (ban, admin, parse error) is sent — but the
"command not found" notice is not suppressed for self-authored posts, so
every effect of firing the `post` event for a self-authored post is a
`noCommand` notice (possibly none). -/
theorem self_post_only_noCommand (cfg : BotConfig)
    (commands : List RegisteredCommand) (post : Post)
    (hself : post.u = cfg.username) :
    (postEffects cfg commands post).all Effect.isNoCommandNotice = true := by
  have hcmd : ∀ c, commandEffects cfg c post = [] := by
    intro c
    simp [commandEffects, dispatchCommand, hself]
  have hflat :
      (commands.map (fun c => commandEffects cfg c post)).flatten = [] := by
    rw [List.flatten_eq_nil_iff]
    intro l hl
    rw [List.mem_map] at hl
    obtain ⟨c, _, rfl⟩ := hl
    exact hcmd c
  rw [postEffects, hflat]
  split <;> simp [Effect.isNoCommandNotice]

/-- Witness for C8: for the concrete self-authored post of the
counterexample, every fired effect is a `noCommand` notice. -/
theorem self_post_only_noCommand_witness :
    (postEffects (BotConfig.mk "Bot" [] [])
        [RegisteredCommand.mk "help" [] false]
        (Post.mk "@Bot frobnicate" "Bot" "1" "home")).all
      Effect.isNoCommandNotice = true :=
  self_post_only_noCommand (BotConfig.mk "Bot" [] [])
    [RegisteredCommand.mk "help" [] false]
    (Post.mk "@Bot frobnicate" "Bot" "1" "home") rfl

/-- Each loop iteration of `parseArgs` pushes at most one value onto
`parsed`, so a successful run over a pattern suffix adds at most one value
per slot to the accumulator. -/
theorem parseArgsGo_ok_length (args : List String) (pat : List PatternEntry) :
    ∀ (i : ℕ) (ho hf : Bool) (acc : List Value) (hf' : Bool)
      (out : List Value),
      parseArgsGo args pat i ho hf acc = .ok (hf', out) →
      out.length ≤ acc.length + pat.length := by
  induction pat with
  | nil =>
    intro i ho hf acc hf' out h
    simp only [parseArgsGo] at h
    cases h
    simp
  | cons e rest ih =>
    intro i ho hf acc hf' out h
    simp only [parseArgsGo] at h
    split at h
    · simp at h
    · split at h
      · have := ih _ _ _ _ _ _ h
        simp at this ⊢
        omega
      · split at h
        · simp at h
        · split at h
          · split at h
            · have := ih _ _ _ _ _ _ h
              simp at this ⊢
              omega
            · simp at h
          · have := ih _ _ _ _ _ _ h
            simp at this ⊢
            omega
          · split at h
            · simp at h
            · have := ih _ _ _ _ _ _ h
              simp at this ⊢
              omega
          · split at h
            · simp at h
            · have := ih _ _ _ _ _ _ h
              simp at this ⊢
              omega

/-- The `hadFull` flag is only ever set by a `full` slot: over a pattern
suffix containing no `full` slot, a successful run that starts with the
flag unset ends with it unset. -/
theorem parseArgsGo_no_full_hadFull (args : List String)
    (pat : List PatternEntry) :
    ∀ (i : ℕ) (ho : Bool) (acc : List Value) (hf' : Bool)
      (out : List Value),
      (∀ e ∈ pat, e.patternType ≠ .full) →
      parseArgsGo args pat i ho false acc = .ok (hf', out) →
      hf' = false := by
  induction pat with
  | nil =>
    intro i ho acc hf' out hnf h
    simp only [parseArgsGo] at h
    cases h
    rfl
  | cons e rest ih =>
    intro i ho acc hf' out hnf h
    have hne : e.patternType ≠ .full := hnf e (by simp)
    have hnr : ∀ x ∈ rest, x.patternType ≠ .full := fun x hx =>
      hnf x (by simp [hx])
    simp only [parseArgsGo] at h
    split at h
    · simp at h
    · split at h
      · exact ih _ _ _ _ _ hnr h
      · split at h
        · simp at h
        · split at h
          · split at h
            · exact ih _ _ _ _ _ hnr h
            · simp at h
          · exact ih _ _ _ _ _ hnr h
          · split at h
            · simp at h
            · exact ih _ _ _ _ _ hnr h
          · rename_i heq
            exact absurd heq hne

/-- If, starting from the current `hadOptionals` flag, the remaining
pattern has a non-optional slot at or after the point where the flag
becomes set, the loop never exits normally: it is stopped by the
optional-before-required definition error when that slot is reached, or by
an error from an earlier slot. -/
theorem parseArgsGo_optThenRequired_not_ok (args : List String)
    (pat : List PatternEntry) :
    ∀ (i : ℕ) (seen hf : Bool) (acc : List Value) (r : Bool × List Value),
      hasOptThenRequired pat seen = true →
      parseArgsGo args pat i seen hf acc ≠ .ok r := by
  induction pat with
  | nil =>
    intro i seen hf acc r hp
    simp [hasOptThenRequired] at hp
  | cons e rest ih =>
    intro i seen hf acc r hp h
    simp only [hasOptThenRequired] at hp
    simp only [parseArgsGo] at h
    by_cases hc : (seen && !e.isOptional) = true
    · rw [if_pos hc] at h
      simp at h
    · rw [if_neg hc] at hp
      rw [if_neg hc] at h
      split at h
      · exact ih _ _ _ _ _ hp h
      · split at h
        · simp at h
        · split at h
          · split at h
            · exact ih _ _ _ _ _ hp h
            · simp at h
          · exact ih _ _ _ _ _ hp h
          · split at h
            · simp at h
            · exact ih _ _ _ _ _ hp h
          · split at h
            · simp at h
            · exact ih _ _ _ _ _ hp h

/-- If the remaining pattern has a non-optional `full` slot in non-last
position, the loop never exits normally: a non-optional `full` slot is
always resolved when reached (even with no token left), which raises the
`full`-not-last definition error, unless an earlier slot errored first. -/
theorem parseArgsGo_reqFullNotLast_not_ok (args : List String)
    (pat : List PatternEntry) :
    ∀ (i : ℕ) (ho hf : Bool) (acc : List Value) (r : Bool × List Value),
      hasRequiredFullNotLast pat = true →
      parseArgsGo args pat i ho hf acc ≠ .ok r := by
  induction pat with
  | nil =>
    intro i ho hf acc r hp
    simp [hasRequiredFullNotLast] at hp
  | cons e rest ih =>
    intro i ho hf acc r hp h
    simp only [hasRequiredFullNotLast, Bool.or_eq_true, Bool.and_eq_true]
      at hp
    simp only [parseArgsGo] at h
    rcases hp with ⟨⟨hne, hfull⟩, hreq⟩ | hp
    · have hfull' : e.patternType = .full := by rwa [beq_iff_eq] at hfull
      have hreq' : e.isOptional = false := by simpa using hreq
      have hne' : rest ≠ [] := by simpa [List.isEmpty_iff] using hne
      split at h
      · simp at h
      · simp [hfull', hreq', hne'] at h
    · split at h
      · simp at h
      · split at h
        · exact ih _ _ _ _ _ hp h
        · split at h
          · simp at h
          · split at h
            · split at h
              · exact ih _ _ _ _ _ hp h
              · simp at h
            · exact ih _ _ _ _ _ hp h
            · split at h
              · simp at h
              · exact ih _ _ _ _ _ hp h
            · split at h
              · simp at h
              · exact ih _ _ _ _ _ hp h

/-- Claim C1, counterexample: on the very example of the spec
`parse([{type:"string"},{type:"string",optional:true}], ["Josh"])` the
code returns the one-element list `["Josh"]` — the skipped optional slot
contributes no absent/undefined marker at its position, so the result is
not aligned one-entry-per-slot with the two-slot pattern (the doc comment in the
code itself documents `["Josh"]`, src/mod.ts line 752). -/
theorem skipped_optional_no_marker_counterexample :
    parseArgs
        [PatternEntry.obj .str none false, PatternEntry.obj .str none true]
        ["Josh"] = .ok [Value.vStr "Josh"] ∧
      ([Value.vStr "Josh"] : List Value).length = 1 ∧
      ([PatternEntry.obj .str none false, PatternEntry.obj .str none true] :
          List PatternEntry).length = 2 :=
  ⟨rfl, rfl, rfl⟩

/-- Claim C1, amended: on success `parseArgs` returns the resolved values in
slot order with one entry per slot that resolved a value; a skipped
optional slot contributes nothing, so the result can be shorter than the
pattern (never longer), and when the pattern has no `full` slot a
successful result has exactly one entry per supplied token. In particular
`parse([{type:"string"},{type:"string",optional:true}], ["Josh"])` is
`["Josh"]`, and with `["Josh","Hello"]` it is `["Josh","Hello"]`. -/
theorem parseArgs_values_in_slot_order :
    (∀ (pattern : List PatternEntry) (args : List String)
        (parsed : List Value),
        parseArgs pattern args = .ok parsed →
        parsed.length ≤ pattern.length) ∧
      (∀ (pattern : List PatternEntry) (args : List String)
          (parsed : List Value),
          parseArgs pattern args = .ok parsed →
          (∀ e ∈ pattern, e.patternType ≠ .full) →
          parsed.length = args.length) ∧
      parseArgs
          [PatternEntry.obj .str none false, PatternEntry.obj .str none true]
          ["Josh"] = .ok [Value.vStr "Josh"] ∧
      parseArgs
          [PatternEntry.obj .str none false, PatternEntry.obj .str none true]
          ["Josh", "Hello"] = .ok [Value.vStr "Josh", Value.vStr "Hello"] := by
  refine ⟨?_, ?_, rfl, rfl⟩
  · intro pattern args parsed h
    cases hgo : parseArgsGo args pattern 0 false false [] with
    | error e => simp [parseArgs, hgo] at h
    | ok r =>
      obtain ⟨hf', out⟩ := r
      simp only [parseArgs, hgo] at h
      by_cases hc : (!hf' && decide (args.length ≠ out.length)) = true
      · rw [if_pos hc] at h
        simp at h
      · rw [if_neg hc] at h
        simp only [Except.ok.injEq] at h
        subst h
        have hlen := parseArgsGo_ok_length args pattern 0 false false [] hf'
          out hgo
        simpa using hlen
  · intro pattern args parsed h hnf
    cases hgo : parseArgsGo args pattern 0 false false [] with
    | error e => simp [parseArgs, hgo] at h
    | ok r =>
      obtain ⟨hf', out⟩ := r
      have hff : hf' = false := parseArgsGo_no_full_hadFull args pattern 0
        false [] hf' out hnf hgo
      subst hff
      simp only [parseArgs, hgo] at h
      by_cases hc : (!false && decide (args.length ≠ out.length)) = true
      · rw [if_pos hc] at h
        simp at h
      · rw [if_neg hc] at h
        simp only [Except.ok.injEq] at h
        subst h
        simp at hc
        omega

/-- Witness for C1: the general parts of `parseArgs_values_in_slot_order`
applied at a concrete successful parse. -/
theorem parseArgs_values_in_slot_order_witness :
    ([Value.vStr "a"] : List Value).length ≤
        ([PatternEntry.bare PatternType.str] : List PatternEntry).length ∧
      ([Value.vStr "a"] : List Value).length = (["a"] : List String).length :=
  ⟨parseArgs_values_in_slot_order.1 [PatternEntry.bare PatternType.str]
      ["a"] [Value.vStr "a"] rfl,
    parseArgs_values_in_slot_order.2.1 [PatternEntry.bare PatternType.str]
      ["a"] [Value.vStr "a"] rfl (by decide)⟩

/-- Claim C2, counterexample: for the pattern
`[{type:["a"],optional:true}, "string"]`, in which an optional slot
precedes a required one, parsing `["b"]` returns the enum-mismatch
UserInputError `argsNotInSet`, not a DefinitionError: the invariant check
runs per slot inside the loop, after the token of the optional slot has
already been consumed and validated. -/
theorem optional_before_required_user_error_counterexample :
    hasOptThenRequired
        [PatternEntry.obj (.enum ["a"]) none true, PatternEntry.bare .str]
        false = true ∧
      parseArgs
          [PatternEntry.obj (.enum ["a"]) none true, PatternEntry.bare .str]
          ["b"] = .error (.argsNotInSet "\"b\"" "\"a\"") ∧
      ParseError.isDefinition (.argsNotInSet "\"b\"" "\"a\"") = false :=
  ⟨rfl, rfl, rfl⟩

/-- Claim C2, amended: for every pattern in which an optional slot precedes
a non-optional slot, `parseArgs` never succeeds on any token list — the
optional-before-required DefinitionError is raised when the offending
slot is reached, before consuming the token of that slot, but a
UserInputError from an earlier slot (enum mismatch or not-a-number) can be returned
instead, because the invariant check runs slot by slot rather than before
any token is consumed. -/
theorem optional_before_required_never_succeeds
    (pattern : List PatternEntry) (args : List String)
    (hp : hasOptThenRequired pattern false = true) :
    (parseArgs pattern args).isOk = false := by
  cases hgo : parseArgsGo args pattern 0 false false [] with
  | error e =>
    simp only [parseArgs, hgo]
    rfl
  | ok r =>
    exact absurd hgo
      (parseArgsGo_optThenRequired_not_ok args pattern 0 false false [] r hp)

/-- Witness for C2: a concrete optional-before-required pattern fails on
a concrete token list. -/
theorem optional_before_required_never_succeeds_witness :
    (parseArgs [PatternEntry.obj .str none true, PatternEntry.bare .str]
        ["x", "y"]).isOk = false :=
  optional_before_required_never_succeeds _ _ rfl

/-- Claim C3, counterexample: the two-slot pattern
`[{type:"full",optional:true},{type:"string",optional:true}]` contains a
`full` slot in non-last position, yet parsing the empty token list
*succeeds* (with `[]`): the optional `full` slot is skipped before its
non-last check is ever reached. -/
theorem fulltext_not_last_success_counterexample :
    (([PatternEntry.obj .full none true, PatternEntry.obj .str none true] :
          List PatternEntry).length = 2 ∧
        (PatternEntry.obj .full none true).patternType = .full) ∧
      parseArgs
          [PatternEntry.obj .full none true, PatternEntry.obj .str none true]
          [] = .ok [] :=
  ⟨⟨rfl, rfl⟩, rfl⟩

/-- Claim C3, amended: for every pattern containing a *non-optional* `full`
slot at a position other than the last, `parseArgs` returns an error on
every token list (never success) — the fixed `full`-not-last
DefinitionError when that slot is reached, though an error from an earlier slot
can preempt it; an *optional* non-last `full` slot can be skipped when no
token remains at its position, in which case parsing may succeed. -/
theorem required_fulltext_not_last_never_succeeds
    (pattern : List PatternEntry) (args : List String)
    (hp : hasRequiredFullNotLast pattern = true) :
    (parseArgs pattern args).isOk = false := by
  cases hgo : parseArgsGo args pattern 0 false false [] with
  | error e =>
    simp only [parseArgs, hgo]
    rfl
  | ok r =>
    exact absurd hgo
      (parseArgsGo_reqFullNotLast_not_ok args pattern 0 false false [] r hp)

/-- Witness for C3: a concrete pattern with a required non-last `full`
slot fails on a concrete token list. -/
theorem required_fulltext_not_last_never_succeeds_witness :
    (parseArgs [PatternEntry.bare .full, PatternEntry.bare .str]
        ["a", "b"]).isOk = false :=
  required_fulltext_not_last_never_succeeds _ _ rfl

/-- Claim C10, counterexample: an empty-string token is *not* treated
exactly like an absent token: with the single-optional-slot pattern, the
token list `[""]` fails with `tooManyArgs` (the skipped empty token still
counts as supplied in the final length check) while the truly-absent
token list `[]` succeeds. -/
theorem empty_token_not_exactly_absent_counterexample :
    parseArgs [PatternEntry.obj .str none true] [""] =
        .error .tooManyArgs ∧
      parseArgs [PatternEntry.obj .str none true] [] = .ok [] :=
  ⟨rfl, rfl⟩

/-- Claim C10, amended: the per-slot presence test of `parseArgs` treats an
empty-string token like an absent one — a non-optional non-`full` slot
whose positional token is `""` fails with the missing-argument error even
though a token was supplied, and an optional slot whose token is `""` is
skipped, contributing no value — but the trailing too-many-arguments
check still counts empty tokens as supplied, so an empty token can make
an otherwise-succeeding parse fail (see the counterexample). Dispatch
splits content on single spaces, so consecutive spaces produce such empty
tokens. -/
theorem empty_token_slot_handling (t t2 : PatternType)
    (name name2 : Option String) (rest : List PatternEntry)
    (args : List String) (ht : t ≠ .full) :
    parseArgs (PatternEntry.obj t name false :: rest) ("" :: args) =
        .error (.argsMissing (slotRepr (PatternEntry.obj t name false))) ∧
      parseArgs [PatternEntry.obj t2 name2 true] [""] =
        .error .tooManyArgs ∧
      parseArgs [PatternEntry.obj t2 name2 true] [] = .ok [] ∧
      jsSplitSpace "a  b" = ["a", "", "b"] := by
  refine ⟨?_, ?_, ?_, rfl⟩
  · simp [parseArgs, parseArgsGo, PatternEntry.isOptional,
      PatternEntry.patternType, ht]
  · simp [parseArgs, parseArgsGo, PatternEntry.isOptional]
  · simp [parseArgs, parseArgsGo, PatternEntry.isOptional]

/-- Witness for C10 at concrete slot types. -/
theorem empty_token_slot_handling_witness :
    (parseArgs [PatternEntry.obj PatternType.str none false] [""] =
        .error (.argsMissing (slotRepr
          (PatternEntry.obj PatternType.str none false))) ∧
      parseArgs [PatternEntry.obj PatternType.str none true] [""] =
        .error .tooManyArgs ∧
      parseArgs [PatternEntry.obj PatternType.str none true] [] = .ok [] ∧
      jsSplitSpace "a  b" = ["a", "", "b"]) :=
  empty_token_slot_handling PatternType.str PatternType.str none none [] []
    (by decide)

end RoarBot
